import Mathlib

/-!
Shallow embedding of the Atomberg share-of-voice scoring pipeline:
brand detection and engagement scoring (`config.py`,
`src/analyzers/quantitative_analyzer.py`), the Share-of-Voice calculator
(`src/analyzers/sov_calculator.py`), and the multi-factor competitive
scoring engine (`src/analyzers/competitive_scoring_analyzer.py`).

Modelling conventions:
* Python `float` arithmetic is modelled by exact rationals (`ℚ`); every
  quantity evaluated in this development is exactly representable, and no
  value sits on a rounding half-way point, so `round(x, n)` agrees with the
  exact half-up rounding `pyRound` below.
* Python `dict`s are association lists (`Dict α`) with unique keys kept in
  insertion order; `defaultdict` accumulation appends a fresh key at the end.
* Python code that can raise is modelled in `Except String`; a raised
  exception is an `Except.error` carrying the message.
* The regular-expression engine (`re.findall`) is external to the repository
  and is modelled as an explicit parameter `findallCount : String → String → ℕ`
  giving the number of non-overlapping matches of a pattern source string in
  a (lowercased) text.
* `statistics.stdev` takes a real square root; the square root on the sample
  variance is an explicit parameter `sqrtQ : ℚ → ℚ`, constrained in each
  theorem exactly at the point where it is applied.
-/

/-- Association list standing for a Python `dict` (keys unique, insertion
order preserved). -/
abbrev Dict (α : Type) : Type := List (String × α)

/-- Python `d[k]` / `k in d` lookup, as an `Option`. -/
def dget {α : Type} (k : String) : Dict α → Option α
  | [] => none
  | p :: rest => if p.1 = k then some p.2 else dget k rest

/-- Python `d.get(k, default)`. -/
def dgetD {α : Type} (m : Dict α) (k : String) (d : α) : α := (dget k m).getD d

/-- Python `d.keys()`. -/
def dkeys {α : Type} (m : Dict α) : List String := m.map Prod.fst

/-- Python `sum(d.values())`. -/
def dsum (m : Dict ℚ) : ℚ := (m.map Prod.snd).sum

/-- Accumulation into a `defaultdict(int)` / `defaultdict(float)`:
`m[k] += v`, inserting the key at the end on first touch. -/
def dadd (m : Dict ℚ) (k : String) (v : ℚ) : Dict ℚ :=
  if (dget k m).isSome then m.map (fun p => if p.1 = k then (p.1, p.2 + v) else p)
  else m ++ [(k, v)]

/-- Accumulation into a `defaultdict(list)`: `m[k].append(v)`. -/
def dappend (m : Dict (List ℚ)) (k : String) (v : ℚ) : Dict (List ℚ) :=
  if (dget k m).isSome then m.map (fun p => if p.1 = k then (p.1, p.2 ++ [v]) else p)
  else m ++ [(k, [v])]

/-- Python `max` over a list of numbers (the `[]` case never arises at the
call sites, which guard for emptiness or raise first). -/
def listMax : List ℚ → ℚ
  | [] => 0
  | x :: xs => xs.foldl max x

/-- Python `statistics.mean`. -/
def pyMean (xs : List ℚ) : ℚ := xs.sum / (xs.length : ℚ)

/-- Sample variance with Bessel correction: the square of
`statistics.stdev` (which uses the n−1 denominator). -/
def sampleVar (xs : List ℚ) : ℚ :=
  ((xs.map (fun x => (x - pyMean xs) ^ 2)).sum) / ((xs.length : ℚ) - 1)

/-- Python `round(x, n)` as exact rational rounding. Python rounds
half-way cases to even; no value rounded in this development lies on a
half-way point, where the two rules agree. -/
def pyRound (n : ℕ) (x : ℚ) : ℚ := ((⌊x * 10 ^ n + 1 / 2⌋ : ℤ) : ℚ) / 10 ^ n

/-- The clamp `min(max(x, 0), 100)` used by the SoV calculator. -/
def clamp0100 (x : ℚ) : ℚ := min (max x 0) 100

/-- Python substring containment `needle in haystack`. -/
def substrIn (needle haystack : String) : Prop :=
  needle.toList <:+: haystack.toList

instance (n h : String) : Decidable (substrIn n h) := List.decidableInfix _ _

/-- Python `str.lower()`, mapping each character to its lower-case form
(exact for the ASCII texts and patterns this pipeline handles). -/
def pyLower (s : String) : String := String.mk (s.data.map Char.toLower)

/-! Embedding of `config.py`. -/

/-- config.BRAND_PATTERNS: brand identifier to regex pattern source strings. -/
def BRAND_PATTERNS : Dict (List String) :=
  [("atomberg", ["\\batomberg\\b", "\\batom\\s*berg\\b", "@atomberg"]),
   ("havells", ["\\bhavells\\b", "@havells"]),
   ("bajaj", ["\\bbajaj\\b", "@bajajelectricals", "bajaj\\s+electrical"]),
   ("crompton", ["\\bcrompton\\b", "@cromptongreaves"]),
   ("orient", ["\\borient\\b", "orient\\s+electric", "@orientelectric"]),
   ("usha", ["\\busha\\b", "@ushainternational"])]

/-- config.SOV_WEIGHTS, field mention_weight. -/
def SOV_WEIGHT_mention : ℚ := 0.6

/-- config.SOV_WEIGHTS, field engagement_weight. -/
def SOV_WEIGHT_engagement : ℚ := 0.4

/-- config.SOV_WEIGHTS, field position_bonus. -/
def SOV_WEIGHT_position : ℚ := 0.1

/-- config.ENGAGEMENT_FACTORS, field content_length_multiplier. -/
def ENGAGEMENT_content_length_multiplier : ℚ := 0.1

/-- config.ENGAGEMENT_FACTORS, field title_mention_bonus. -/
def ENGAGEMENT_title_mention_bonus : ℚ := 50

/-- config.ENGAGEMENT_FACTORS, field authority_domain_bonus. -/
def ENGAGEMENT_authority_domain_bonus : ℚ := 100

/-- config.ENGAGEMENT_FACTORS, field review_keyword_bonus. -/
def ENGAGEMENT_review_keyword_bonus : ℚ := 25

/-- config.ENGAGEMENT_FACTORS, field comparison_keyword_bonus. -/
def ENGAGEMENT_comparison_keyword_bonus : ℚ := 75

/-- config.AUTHORITY_DOMAINS: substrings matched against URLs. -/
def AUTHORITY_DOMAINS : List String :=
  ["amazon.com", "flipkart.com", "croma.com", "indiamart.com", "justdial.com",
   "consumerreports.org", "which.co.uk", "gadgets360.com", "digit.in",
   ".edu", ".gov"]

/-- Review keywords tested by get_engagement_score. -/
def reviewKeywords : List String := ["review", "rating", "star"]

/-- Comparison keywords tested by get_engagement_score. -/
def comparisonKeywords : List String := ["vs", "versus", "comparison", "compare"]

/-- config.get_engagement_score, statement by statement: a running score
starting at 0.0, accumulating the content-length term and the four
conditional flat bonuses. Pure function of its three string arguments. -/
def get_engagement_score (content url title : String) : ℚ :=
  let score : ℚ := 0
  let score := score + (content.length : ℚ) * ENGAGEMENT_content_length_multiplier
  let score := if ∃ b ∈ dkeys BRAND_PATTERNS, substrIn b (pyLower title) then
      score + ENGAGEMENT_title_mention_bonus else score
  let score := if ∃ d ∈ AUTHORITY_DOMAINS, substrIn d url then
      score + ENGAGEMENT_authority_domain_bonus else score
  let score := if ∃ k ∈ reviewKeywords, substrIn k (pyLower content) then
      score + ENGAGEMENT_review_keyword_bonus else score
  let score := if ∃ k ∈ comparisonKeywords, substrIn k (pyLower content) then
      score + ENGAGEMENT_comparison_keyword_bonus else score
  score

/-! Embedding of `src/analyzers/quantitative_analyzer.py`. -/

/-- Total number of pattern matches for one brand: the sum over all its
patterns of the match counts in the lowercased content. -/
def totalPatternMatches (findallCount : String → String → ℕ)
    (lowered : String) (patterns : List String) : ℕ :=
  (patterns.map (fun pat => findallCount pat lowered)).sum

/-- Loop body of detect_brands_in_content over the pattern registry:
builds the capped and raw dicts in registry order, inserting a brand only
when its total match count is positive. -/
def detectAux (findallCount : String → String → ℕ) (lowered : String) :
    Dict (List String) → Dict ℕ × Dict ℕ
  | [] => ([], [])
  | (b, ps) :: rest =>
    let tailRes := detectAux findallCount lowered rest
    let tot := totalPatternMatches findallCount lowered ps
    if 0 < tot then ((b, 1) :: tailRes.1, (b, tot) :: tailRes.2) else tailRes

/-- quantitative_analyzer.detect_brands_in_content, parametric in the
regex engine. Returns (capped mentions, raw mention counts). -/
def detect_brands_in_content (findallCount : String → String → ℕ)
    (registry : Dict (List String)) (content : String) : Dict ℕ × Dict ℕ :=
  detectAux findallCount (pyLower content) registry

/-- One evidence record as consumed by quantitative_analysis_agent
(fields it reads; `position` is 0 when not applicable, e.g. comments). -/
structure SearchResult where
  id : String
  title : String
  snippet : String
  url : String
  position : ℚ
deriving DecidableEq

/-- The per-brand accumulators built by quantitative_analysis_agent. -/
structure QuantAgg where
  brand_mentions_raw : Dict ℚ
  brand_mentions : Dict ℚ
  engagement_scores : Dict ℚ
  position_analysis : Dict (List ℚ)
deriving DecidableEq

/-- Loop body of quantitative_analysis_agent for one record: detect
brands in `title ++ " " ++ snippet`, compute the engagement score, then
aggregate raw counts, capped counts, the engagement score distributed
evenly over the detected brands, and the record position per detected
brand. -/
def processResult (findallCount : String → String → ℕ)
    (acc : QuantAgg) (result : SearchResult) : QuantAgg :=
  let content := result.title ++ " " ++ result.snippet
  let det := detect_brands_in_content findallCount BRAND_PATTERNS content
  let engagement := get_engagement_score content result.url result.title
  let newRaw := det.2.foldl (fun m p => dadd m p.1 (p.2 : ℚ)) acc.brand_mentions_raw
  let newCapped := det.1.foldl (fun m p => dadd m p.1 (p.2 : ℚ)) acc.brand_mentions
  let newEs := if det.1 ≠ [] then
      det.1.foldl (fun m p => dadd m p.1 (engagement / (det.1.length : ℚ)))
        acc.engagement_scores
    else acc.engagement_scores
  let newPa := if det.1 ≠ [] then
      det.1.foldl (fun m p => dappend m p.1 result.position) acc.position_analysis
    else acc.position_analysis
  ⟨newRaw, newCapped, newEs, newPa⟩

/-- Aggregation phase of quantitative_analysis_agent over all records. -/
def quantAggregate (findallCount : String → String → ℕ)
    (results : List SearchResult) : QuantAgg :=
  results.foldl (processResult findallCount) ⟨[], [], [], []⟩

/-! Embedding of `src/core/detective_state.py` (the parts the analyzers
use). The wall-clock timestamp of log_platform_progress is an explicit
parameter. -/

/-- Log line format of detective_state.log_platform_progress. -/
def logEntry (timestamp platform message : String) : String :=
  "[" ++ timestamp ++ "] 🎬 " ++ platform.toUpper ++ ": " ++ message

/-- One per-brand record of the sov_metrics map built by the SoV
calculator. -/
structure BrandSov where
  mention_share : ℚ
  engagement_share : ℚ
  overall_sov : ℚ
  average_position : ℚ
  top_3_appearances : ℕ
  total_mentions : ℚ
  total_engagement : ℚ
deriving DecidableEq

/-- The fields of MultiPlatformState read or written by the SoV
calculator and the competitive scorer. The remaining fields (collection
results, platform configuration, insight lists and the
competitive_landscape summary, none of which the verified claims touch)
are elided. -/
structure PipelineState where
  brand_mentions : Dict ℚ
  engagement_scores : Dict ℚ
  position_analysis : Dict (List ℚ)
  sov_metrics : Dict BrandSov
  focus_brand : String
  investigation_log : List String
  current_phase : String
deriving DecidableEq

/-- detective_state.log_platform_progress: appends one formatted log
entry to the investigation log. -/
def log_platform_progress (timestamp : String) (st : PipelineState)
    (platform message : String) : PipelineState :=
  { st with investigation_log :=
      st.investigation_log ++ [logEntry timestamp platform message] }

/-! Embedding of `src/analyzers/sov_calculator.py`. -/

/-- Core share formula of sov_calculation_agent:
`(amount / total) * 100 if total > 0 else 0`. Used for both the mention
share and the engagement share. -/
def shareOf (amount total : ℚ) : ℚ := if 0 < total then amount / total * 100 else 0

/-- A share clamped between 0 and 100 before rounding. -/
def clampedShare (amount total : ℚ) : ℚ := clamp0100 (shareOf amount total)

/-- Per-brand body of the sov_calculation_agent loop: shares, average
position, top-3 count, weighted overall SoV with position bonus, all
clamped and rounded as in the source. -/
def sovMetricsFor (totalMentions totalEngagement mentions engagement : ℚ)
    (positions : List ℚ) : BrandSov :=
  let mention_share := clampedShare mentions totalMentions
  let engagement_share := clampedShare engagement totalEngagement
  let avg_position := if positions ≠ [] then positions.sum / (positions.length : ℚ) else 0
  let top3 := (positions.filter (fun p => p ≤ 3)).length
  let base := mention_share * SOV_WEIGHT_mention + engagement_share * SOV_WEIGHT_engagement
  let overall := if 0 < avg_position then
      base + max 0 ((10 - avg_position) * SOV_WEIGHT_position) else base
  ⟨pyRound 2 mention_share, pyRound 2 engagement_share,
    pyRound 2 (clamp0100 overall), pyRound 1 avg_position, top3,
    mentions, pyRound 1 engagement⟩

/-- Skip log message of sov_calculation_agent on empty brand data. -/
def sovSkipMessage : String := "⚠️ SoV calculation skipped - no brand data"

/-- Completion log message of sov_calculation_agent (the interpolated
focus-brand SoV figure of the f-string is elided; no claim reads it). -/
def sovCompletedMessage : String := "📈 SoV calculation completed"

/-- sov_calculator.sov_calculation_agent. On empty brand_mentions it
only logs a skip entry and changes nothing else; otherwise it computes
the per-brand SoV metrics in brand_mentions order, logs completion and
advances the phase. The competitive_landscape summary it also builds is
elided (no claim touches it). -/
def sov_calculation_agent (timestamp : String) (st : PipelineState) : PipelineState :=
  if st.brand_mentions = [] then
    log_platform_progress timestamp st "google" sovSkipMessage
  else
    let totalMentions := dsum st.brand_mentions
    let totalEngagement := dsum st.engagement_scores
    let metrics := st.brand_mentions.map (fun p =>
      (p.1, sovMetricsFor totalMentions totalEngagement
        (dgetD st.brand_mentions p.1 0) (dgetD st.engagement_scores p.1 0)
        (dgetD st.position_analysis p.1 [])))
    let st := log_platform_progress timestamp st "google" sovCompletedMessage
    { st with sov_metrics := metrics, current_phase := "sov_calculation_complete" }

/-! Embedding of `src/analyzers/competitive_scoring_analyzer.py`. -/

/-- Lookup `sov_metrics.get(brand, {}).get('overall_sov', 0)`. -/
def sovOf (sov : Dict BrandSov) (b : String) : ℚ :=
  match dget b sov with
  | some m => m.overall_sov
  | none => 0

/-- The generator `sov_metrics[brand].get('overall_sov', 0) for brand in
brand_mentions.keys()`, evaluated left to right: the first mentioned
brand missing from sov_metrics raises a KeyError. -/
def sovLookups (sov : Dict BrandSov) : Dict ℚ → Except String (List ℚ)
  | [] => Except.ok []
  | p :: rest =>
    match dget p.1 sov with
    | some m => (sovLookups sov rest).map (fun l => m.overall_sov :: l)
    | none => Except.error ("KeyError: " ++ p.1)

/-- CompetitiveIntelligenceScorer._calculate_market_presence_scores.
`max(sov_metrics[brand] ...)` raises a KeyError for a mentioned brand
absent from sov_metrics, and `max` raises on an empty generator, so the
function lives in `Except`. -/
def marketPresenceScores (bm : Dict ℚ) (sov : Dict BrandSov)
    (pa : Dict (List ℚ)) : Except String (Dict ℚ) :=
  if bm = [] then Except.error "max() arg is an empty sequence"
  else do
    let total_mentions := dsum bm
    let sovVals ← sovLookups sov bm
    let max_sov := listMax sovVals
    Except.ok (bm.map (fun p =>
      let brand_sov := sovOf sov p.1
      let sov_score := if 0 < max_sov then brand_sov / max_sov * 100 else 0
      let mention_share := if 0 < total_mentions then p.2 / total_mentions * 100 else 0
      let volume_score := min 100 (mention_share * 3)
      let positions := dgetD pa p.1 []
      let position_score := if positions ≠ [] then
          max 0 ((11 - pyMean positions) * 10) else 0
      (p.1, pyRound 2 (sov_score * 0.60 + volume_score * 0.25 + position_score * 0.15))))

/-- CompetitiveIntelligenceScorer._calculate_engagement_quality_scores.
All divisions are guarded in the source, so the function is total. -/
def engagementQualityScores (es bm : Dict ℚ) : Dict ℚ :=
  let engagement_per_mention := bm.map (fun p =>
    (p.1, if 0 < p.2 then dgetD es p.1 0 / p.2 else 0))
  let max_epm := if engagement_per_mention ≠ [] then
      listMax (engagement_per_mention.map Prod.snd) else 1
  bm.map (fun p =>
    let b_epm := dgetD engagement_per_mention p.1 0
    (p.1, pyRound 2 (if 0 < max_epm then b_epm / max_epm * 100 else 0)))

/-- Stable descending insertion on the running SoV value: ties keep
original order, as Python `sorted(..., reverse=True)` does. -/
def insertDescBySov (x : String × ℚ) : List (String × ℚ) → List (String × ℚ)
  | [] => [x]
  | y :: ys => if x.2 < y.2 then y :: insertDescBySov x ys else x :: y :: ys

/-- Stable sort of (brand, sov) pairs by descending sov, modelling
Python `sorted(brand_sovs.items(), key=..., reverse=True)`. -/
def sortDescBySov : List (String × ℚ) → List (String × ℚ)
  | [] => []
  | x :: xs => insertDescBySov x (sortDescBySov xs)

/-- CompetitiveIntelligenceScorer._calculate_competitive_position_scores.
The division `100 / total_brands` only happens inside the loop, where
`total_brands ≥ 1`, so the function is total (Lean division by zero is
never reached on a nonempty list, and on an empty list the loop is
empty). The result dict is built in descending-sov order, as in the
source. -/
def competitivePositionScores (sov : Dict BrandSov) (bm : Dict ℚ) : Dict ℚ :=
  let brand_sovs := bm.map (fun p => (p.1, sovOf sov p.1))
  let sorted := sortDescBySov brand_sovs
  let total_brands : ℚ := (sorted.length : ℚ)
  let leader_sov := match sorted with | [] => 0 | y :: _ => y.2
  sorted.enum.map (fun q =>
    let rank : ℚ := (q.1 : ℚ) + 1
    let rank_score := max 0 (100 - (rank - 1) * (100 / total_brands))
    let gap_score := if q.1 = 0 then 100 else max 0 (100 - (leader_sov - q.2.2) * 2)
    (q.2.1, pyRound 2 (rank_score * 0.70 + gap_score * 0.30)))

/-- Mention-count market shares in percent, as computed inside
_calculate_market_dynamics_scores. -/
def mentionMarketShares (bm : Dict ℚ) : Dict ℚ :=
  bm.map (fun p => (p.1, p.2 / dsum bm * 100))

/-- Herfindahl-Hirschman index: sum of squared percentage shares. -/
def hhiOf (shares : Dict ℚ) : ℚ := (shares.map (fun p => p.2 ^ 2)).sum

/-- Market-structure classification with its structure bonus, from the
HHI thresholds in _calculate_market_dynamics_scores. -/
def marketStructureOf (hhi : ℚ) : String × ℚ :=
  if hhi < 1500 then ("competitive", 20)
  else if hhi < 2500 then ("moderately_concentrated", 10)
  else ("highly_concentrated", 5)

/-- CompetitiveIntelligenceScorer._calculate_market_dynamics_scores.
The share comprehension divides by the total mention count with no
guard, so a nonempty mention dict whose counts sum to 0 raises a
ZeroDivisionError; an empty dict never reaches the division. The
sov_metrics argument is unused, as in the source. -/
def marketDynamicsScores (bm : Dict ℚ) (_sov : Dict BrandSov) :
    Except String (Dict ℚ) :=
  if bm ≠ [] ∧ dsum bm = 0 then Except.error "division by zero"
  else
    let market_shares := mentionMarketShares bm
    let structure_bonus := (marketStructureOf (hhiOf market_shares)).2
    Except.ok (bm.map (fun p =>
      let brand_share := dgetD market_shares p.1 0
      let growth_potential := max 0 (100 - brand_share)
      let structure_score := structure_bonus + brand_share * 0.5
      (p.1, pyRound 2 (min 100 (growth_potential * 0.60 + structure_score * 0.40)))))

/-- CompetitiveIntelligenceScorer._determine_performance_tier. -/
def performanceTier (score : ℚ) : String :=
  if 80 ≤ score then "Market Leader"
  else if 60 ≤ score then "Strong Performer"
  else if 40 ≤ score then "Average Competitor"
  else if 20 ≤ score then "Emerging Player"
  else "Follower"

/-- CompetitiveIntelligenceScorer._interpret_cai. -/
def interpretCai (cai : ℚ) : String :=
  if 1 < cai then "Strong Competitive Advantage"
  else if 1 / 2 < cai then "Moderate Competitive Advantage"
  else if -(1 / 2) < cai then "Average Market Performance"
  else if -1 < cai then "Below Average Performance"
  else "Significant Competitive Disadvantage"

/-- One per-brand record of the competitive_scores map. The CAI fields
are only added when at least two brands are scored, hence `Option`. -/
structure CompScore where
  total_score : ℚ
  market_presence : ℚ
  engagement_quality : ℚ
  competitive_position : ℚ
  market_dynamics : ℚ
  performance_tier : String
  competitive_advantage_index : Option ℚ
  cai_interpretation : Option String
deriving DecidableEq

/-- The weighted total of the four factor scores, with the scoring
weights 0.40 / 0.30 / 0.20 / 0.10 of CompetitiveIntelligenceScorer. -/
def totalScoreOf (presence quality position dynamics : ℚ) : ℚ :=
  presence * 0.40 + quality * 0.30 + position * 0.20 + dynamics * 0.10

/-- The unrounded total scores collected into `brand_scores`, in the
iteration order of the market-presence map. -/
def brandTotals (mp eqs cp md : Dict ℚ) : List ℚ :=
  mp.map (fun p =>
    totalScoreOf p.2 (dgetD eqs p.1 0) (dgetD cp p.1 0) (dgetD md p.1 0))

/-- CompetitiveIntelligenceScorer._calculate_weighted_competitive_scores.
Brands are drawn from the market-presence map. When more than one brand
is scored, the CAI divides the rounded stored total minus the mean of
the unrounded totals by the sample standard deviation of the unrounded
totals; dividing by a zero standard deviation raises a
ZeroDivisionError, modelled as an error. -/
def weightedCompetitiveScores (sqrtQ : ℚ → ℚ) (mp eqs cp md : Dict ℚ) :
    Except String (Dict CompScore) :=
  let base : Dict CompScore := mp.map (fun p =>
    let presence := p.2
    let quality := dgetD eqs p.1 0
    let position := dgetD cp p.1 0
    let dynamics := dgetD md p.1 0
    let total := totalScoreOf presence quality position dynamics
    (p.1, ⟨pyRound 2 total, presence, quality, position, dynamics,
      performanceTier total, none, none⟩))
  let brand_scores := brandTotals mp eqs cp md
  if 1 < brand_scores.length then
    let market_average := pyMean brand_scores
    let market_stdev := sqrtQ (sampleVar brand_scores)
    if market_stdev = 0 then Except.error "float division by zero"
    else Except.ok (base.map (fun p =>
      let cai := (p.2.total_score - market_average) / market_stdev
      (p.1, { p.2 with
        competitive_advantage_index := some (pyRound 3 cai),
        cai_interpretation := some (interpretCai cai) })))
  else Except.ok base

/-- Error string of _return_insufficient_data_state. -/
def insufficientDataError : String := "Insufficient brand data for competitive scoring"

/-- Message string of _return_insufficient_data_state. -/
def insufficientDataMessage : String := "Competitive intelligence requires brand mention data"

/-- Recommendation string of _return_insufficient_data_state. -/
def insufficientDataRecommendation : String := "Ensure quantitative analysis detects brand mentions"

/-- The competitive_intelligence value placed in the state by
analyze_competitive_intelligence: the tagged insufficient-data dict, the
error dict of the exception handler, or the computed scores. -/
inductive CompetitiveIntelligence
  | insufficientData (error message recommendation : String)
  | errorTagged (error : String)
  | scores (competitive_scores : Dict CompScore)
deriving DecidableEq

/-- The state update returned by analyze_competitive_intelligence:
the competitive_intelligence value and the new current_phase (`none`
when the phase is left unchanged, as on the insufficient-data path). -/
structure ScorerUpdate where
  competitive_intelligence : CompetitiveIntelligence
  current_phase : Option String
deriving DecidableEq

/-- Steps 1 to 5 of analyze_competitive_intelligence: the four factor
maps and the weighted scores, sequenced so that the first raised
exception propagates. Steps 6 and 7 (market positioning and insight
text) cannot raise on a nonempty mention map and produce no data any
claim reads, so they are elided. -/
def competitiveScoringSteps (sqrtQ : ℚ → ℚ) (st : PipelineState) :
    Except String (Dict CompScore) := do
  let mp ← marketPresenceScores st.brand_mentions st.sov_metrics st.position_analysis
  let eqs := engagementQualityScores st.engagement_scores st.brand_mentions
  let cp := competitivePositionScores st.sov_metrics st.brand_mentions
  let md ← marketDynamicsScores st.brand_mentions st.sov_metrics
  weightedCompetitiveScores sqrtQ mp eqs cp md

/-- CompetitiveIntelligenceScorer.analyze_competitive_intelligence: the
empty-mentions guard returning the insufficient-data state, then the
try/except boundary that turns any raised exception into an error-tagged
competitive_intelligence value. -/
def analyze_competitive_intelligence (sqrtQ : ℚ → ℚ) (st : PipelineState) :
    ScorerUpdate :=
  if st.brand_mentions = [] then
    ⟨CompetitiveIntelligence.insufficientData insufficientDataError
      insufficientDataMessage insufficientDataRecommendation, none⟩
  else
    match competitiveScoringSteps sqrtQ st with
    | Except.error e =>
      ⟨CompetitiveIntelligence.errorTagged e, some "competitive_scoring_error"⟩
    | Except.ok cs =>
      ⟨CompetitiveIntelligence.scores cs, some "competitive_scoring_complete"⟩

/-! Concrete inputs and specification predicates used by the claims. -/

/-- The structural contract of detect_brands_in_content: capped and raw
maps range over the same brand keys; a brand with a positive total match
count appears with its total in the raw map and with 1 in the capped
map; a brand with no matches is absent from both; every capped count is
bounded by the corresponding raw count; and an all-zero match count
yields two empty maps. -/
def DetectSpec (findallCount : String → String → ℕ)
    (registry : Dict (List String)) (content : String) : Prop :=
  let res := detect_brands_in_content findallCount registry content
  dkeys res.1 = dkeys res.2 ∧
  (∀ b ps, (b, ps) ∈ registry →
    (0 < totalPatternMatches findallCount (pyLower content) ps →
      dget b res.2 = some (totalPatternMatches findallCount (pyLower content) ps) ∧
      dget b res.1 = some 1) ∧
    (totalPatternMatches findallCount (pyLower content) ps = 0 →
      dget b res.2 = none ∧ dget b res.1 = none)) ∧
  (∀ b n m, dget b res.1 = some n → dget b res.2 = some m → n ≤ m) ∧
  ((∀ b ps, (b, ps) ∈ registry →
      totalPatternMatches findallCount (pyLower content) ps = 0) →
    res.1 = [] ∧ res.2 = [])

/-- Sample regex engine for the detection witness: two non-overlapping
matches of the first atomberg pattern whenever the lowered text contains
the brand name, no matches for any other pattern. -/
def fc4 : String → String → ℕ := fun pat lowered =>
  if pat = "\\batomberg\\b" ∧ substrIn "atomberg" lowered then 2 else 0

/-- Input state of the end-to-end SoV scenario: mentions 8/2, engagement
80/20, no recorded positions. -/
def c3State : PipelineState :=
  ⟨[("A", 8), ("B", 2)], [("A", 80), ("B", 20)], [], [], "atomberg", [], "initialized"⟩

/-- Empty-input state for the graceful-degradation scenario. -/
def c2StateW : PipelineState :=
  ⟨[], [], [], [], "atomberg", ["start"], "initialized"⟩

/-- Single-brand state instantiating the share-bounds claim. -/
def c6StateW : PipelineState :=
  ⟨[("X", 3)], [("X", 5)], [("X", [2])], [], "atomberg", [], "initialized"⟩

/-- Two-brand positive-mentions state instantiating the share-sum claim. -/
def c9StateW : PipelineState :=
  ⟨[("A", 8), ("B", 2)], [], [], [], "atomberg", [], "collected"⟩

/-- Factor-score map giving the three brands total scores 90, 50 and 10
(each factor equal, so the weighted total reproduces the factor value). -/
def m90 : Dict ℚ := [("A", 90), ("B", 50), ("C", 10)]

/-- Expected weighted competitive scores for totals 90/50/10: the sample
standard deviation of the totals is 40, so the CAI values are 1, 0 and
−1, interpreted as Moderate / Average / Significant-Disadvantage. -/
def c1Expected : Dict CompScore :=
  [("A", ⟨90, 90, 90, 90, 90, "Market Leader", some 1,
      some "Moderate Competitive Advantage"⟩),
   ("B", ⟨50, 50, 50, 50, 50, "Average Competitor", some 0,
      some "Average Market Performance"⟩),
   ("C", ⟨10, 10, 10, 10, 10, "Follower", some (-1),
      some "Significant Competitive Disadvantage"⟩)]

/-- State on which the competitive scorer raises a ZeroDivisionError:
both brands end with identical total scores 67.2, so the sample standard
deviation of the totals is 0 and the CAI division raises. -/
def c8State : PipelineState :=
  ⟨[("A", 1), ("B", 1)], [("A", 3), ("B", 10)], [],
   [("A", ⟨0, 0, 50, 0, 0, 0, 0⟩), ("B", ⟨0, 0, 80 / 3, 0, 0, 0, 0⟩)],
   "atomberg", [], "sov_calculation_complete"⟩

/-- Sample regex engine for the unclamped market-presence scenario: one
match of the first atomberg pattern when the lowered text contains the
brand name. -/
def fc10 : String → String → ℕ := fun pat lowered =>
  if pat = "\\batomberg\\b" ∧ substrIn "atomberg" lowered then 1 else 0

/-- A comment-style evidence record carrying position 0, as produced for
platform comments by the unified record format. -/
def rec10 : SearchResult :=
  ⟨"youtube_comment_1", "Comment on: smart fan video",
   "atomberg is great", "https://www.youtube.com/watch?v=abc", 0⟩

/-- State assembled from the aggregation of the single comment record,
as quantitative_analysis_agent hands it to the downstream analyzers. -/
def st10 : PipelineState :=
  ⟨(quantAggregate fc10 [rec10]).brand_mentions,
   (quantAggregate fc10 [rec10]).engagement_scores,
   (quantAggregate fc10 [rec10]).position_analysis,
   [], "atomberg", [], "quantitative_analysis_complete"⟩

/-! Helper lemmas. -/

lemma clamp0100_nonneg (x : ℚ) : 0 ≤ clamp0100 x :=
  le_min (le_max_right x 0) (by norm_num)

lemma clamp0100_le (x : ℚ) : clamp0100 x ≤ 100 := min_le_right _ _

lemma clamp0100_eq_of_mem {x : ℚ} (h0 : 0 ≤ x) (h1 : x ≤ 100) : clamp0100 x = x := by
  unfold clamp0100
  rw [max_eq_left h0, min_eq_left h1]

lemma pyRound_mono (n : ℕ) {x y : ℚ} (h : x ≤ y) : pyRound n x ≤ pyRound n y := by
  unfold pyRound
  have h10 : (0 : ℚ) < 10 ^ n := by positivity
  have hfl : (⌊x * 10 ^ n + 1 / 2⌋ : ℤ) ≤ ⌊y * 10 ^ n + 1 / 2⌋ :=
    Int.floor_mono (by nlinarith)
  gcongr

lemma pyRound_nonneg (n : ℕ) {x : ℚ} (h : 0 ≤ x) : 0 ≤ pyRound n x := by
  have h0 : pyRound n 0 = 0 := by
    unfold pyRound
    norm_num
  have := pyRound_mono n h
  rw [h0] at this
  exact this

lemma pyRound_le_100 (n : ℕ) {x : ℚ} (h : x ≤ 100) : pyRound n x ≤ 100 := by
  have h100 : pyRound n (100 : ℚ) = 100 := by
    unfold pyRound
    have hc : (100 : ℚ) * 10 ^ n + 1 / 2 = 1 / 2 + ((100 * 10 ^ n : ℤ) : ℚ) := by
      push_cast
      ring
    rw [hc, Int.floor_add_int]
    have hh : (⌊(1 / 2 : ℚ)⌋ : ℤ) = 0 := by norm_num
    rw [hh]
    push_cast
    have h10 : (10 : ℚ) ^ n ≠ 0 := by positivity
    field_simp
  have := pyRound_mono n h
  rw [h100] at this
  exact this

lemma pyRound_clamp_mem (n : ℕ) (x : ℚ) :
    0 ≤ pyRound n (clamp0100 x) ∧ pyRound n (clamp0100 x) ≤ 100 :=
  ⟨pyRound_nonneg n (clamp0100_nonneg x), pyRound_le_100 n (clamp0100_le x)⟩

lemma dget_map_snd {α β : Type} (f : String × α → β) :
    ∀ (l : List (String × α)) (b : String) (m : β),
      dget b (l.map (fun p => (p.1, f p))) = some m → ∃ p, p ∈ l ∧ m = f p := by
  intro l
  induction l with
  | nil => intro b m h; simp [dget] at h
  | cons hd tl ih =>
    intro b m h
    simp only [List.map_cons, dget] at h
    by_cases hb : hd.1 = b
    · rw [if_pos hb] at h
      exact ⟨hd, by simp, by injection h with h2; exact h2.symm⟩
    · rw [if_neg hb] at h
      obtain ⟨p, hp, rfl⟩ := ih b m h
      exact ⟨p, by simp [hp], rfl⟩

/-! Claims. -/

/-- Claim C2: on the empty brand_mentions map, the SoV calculator
returns (rather than raising), leaves the sov_metrics map and the phase
untouched, and only logs the skip flag; the competitive scorer returns
the insufficient-data-tagged result with the phase unchanged, producing
no per-brand scores. -/
theorem C2_empty_input_degrades (ts : String) (sqrtQ : ℚ → ℚ)
    (st : PipelineState) (h : st.brand_mentions = []) :
    (sov_calculation_agent ts st).sov_metrics = st.sov_metrics ∧
    (sov_calculation_agent ts st).current_phase = st.current_phase ∧
    (sov_calculation_agent ts st).investigation_log =
      st.investigation_log ++ [logEntry ts "google" sovSkipMessage] ∧
    analyze_competitive_intelligence sqrtQ st =
      ⟨CompetitiveIntelligence.insufficientData insufficientDataError
        insufficientDataMessage insufficientDataRecommendation, none⟩ := by
  refine ⟨?_, ?_, ?_, ?_⟩ <;>
    simp [sov_calculation_agent, analyze_competitive_intelligence,
      log_platform_progress, h]

/-- Claim C2 witness: instantiation at a concrete empty-mentions state. -/
theorem C2_empty_input_degrades_witness :
    c2StateW.brand_mentions = [] ∧
    ((sov_calculation_agent "00:00:00" c2StateW).sov_metrics = c2StateW.sov_metrics ∧
     (sov_calculation_agent "00:00:00" c2StateW).current_phase = c2StateW.current_phase ∧
     (sov_calculation_agent "00:00:00" c2StateW).investigation_log =
       c2StateW.investigation_log ++ [logEntry "00:00:00" "google" sovSkipMessage] ∧
     analyze_competitive_intelligence (fun _ => 0) c2StateW =
       ⟨CompetitiveIntelligence.insufficientData insufficientDataError
         insufficientDataMessage insufficientDataRecommendation, none⟩) :=
  ⟨rfl, C2_empty_input_degrades "00:00:00" (fun _ => 0) c2StateW rfl⟩

/-- Claim C3: the end-to-end SoV scenario. Mentions 8/2 and engagement
80/20 with no recorded positions give mention share, engagement share
and overall SoV of 80 for brand A and 20 for brand B. -/
theorem C3_sov_scenario :
    dget "A" (sov_calculation_agent "12:00:00" c3State).sov_metrics =
      some ⟨80, 80, 80, 0, 0, 8, 80⟩ ∧
    dget "B" (sov_calculation_agent "12:00:00" c3State).sov_metrics =
      some ⟨20, 20, 20, 0, 0, 2, 20⟩ := by
  constructor <;>
  · simp [sov_calculation_agent, c3State, dsum, log_platform_progress, dget, dgetD,
      sovMetricsFor, clampedShare, shareOf, clamp0100, pyRound,
      SOV_WEIGHT_mention, SOV_WEIGHT_engagement, SOV_WEIGHT_position]
    norm_num

/-- Claim C5: the engagement score decomposes as the content-length term
plus the four independently additive flat bonuses (title brand mention,
authority domain in the URL, review keyword, comparison keyword), and is
never negative. As a Lean function of its three string arguments it is
deterministic and has no side effects. -/
theorem C5_engagement_score_decomposition (content url title : String) :
    get_engagement_score content url title =
      (content.length : ℚ) * ENGAGEMENT_content_length_multiplier
      + (if ∃ b ∈ dkeys BRAND_PATTERNS, substrIn b (pyLower title) then
          ENGAGEMENT_title_mention_bonus else 0)
      + (if ∃ d ∈ AUTHORITY_DOMAINS, substrIn d url then
          ENGAGEMENT_authority_domain_bonus else 0)
      + (if ∃ k ∈ reviewKeywords, substrIn k (pyLower content) then
          ENGAGEMENT_review_keyword_bonus else 0)
      + (if ∃ k ∈ comparisonKeywords, substrIn k (pyLower content) then
          ENGAGEMENT_comparison_keyword_bonus else 0) ∧
    0 ≤ get_engagement_score content url title := by
  constructor
  · unfold get_engagement_score
    split_ifs <;> ring
  · unfold get_engagement_score
    simp only [ENGAGEMENT_content_length_multiplier, ENGAGEMENT_title_mention_bonus,
      ENGAGEMENT_authority_domain_bonus, ENGAGEMENT_review_keyword_bonus,
      ENGAGEMENT_comparison_keyword_bonus]
    split_ifs <;> positivity

/-- Claim C7: mention counts 7/3 give market shares 70/30, whose HHI is
5800, above the 2500 threshold, so the market structure is
highly_concentrated with structure bonus 5; in general an HHI below 1500
classifies as competitive with bonus 20, below 2500 as moderately
concentrated with bonus 10, and otherwise as highly concentrated with
bonus 5. -/
theorem C7_hhi_classification :
    mentionMarketShares [("A", 7), ("B", 3)] = [("A", 70), ("B", 30)] ∧
    hhiOf [("A", 70), ("B", 30)] = 5800 ∧
    (2500 : ℚ) < 5800 ∧
    marketStructureOf 5800 = ("highly_concentrated", 5) ∧
    (∀ h : ℚ, h < 1500 → marketStructureOf h = ("competitive", 20)) ∧
    (∀ h : ℚ, 1500 ≤ h → h < 2500 →
      marketStructureOf h = ("moderately_concentrated", 10)) ∧
    (∀ h : ℚ, 2500 ≤ h → marketStructureOf h = ("highly_concentrated", 5)) := by
  refine ⟨?_, ?_, by norm_num, ?_, ?_, ?_, ?_⟩
  · norm_num [mentionMarketShares, dsum]
  · norm_num [hhiOf]
  · norm_num [marketStructureOf]
  · intro h hh
    unfold marketStructureOf
    rw [if_pos hh]
  · intro h h1 h2
    unfold marketStructureOf
    rw [if_neg (not_lt.mpr h1), if_pos h2]
  · intro h h1
    unfold marketStructureOf
    rw [if_neg (not_lt.mpr (by linarith)), if_neg (not_lt.mpr h1)]

/-- Claim C7 witness: the classification applied at HHI values 1000,
2000 and 5800. -/
theorem C7_hhi_classification_witness :
    marketStructureOf 1000 = ("competitive", 20) ∧
    marketStructureOf 2000 = ("moderately_concentrated", 10) ∧
    marketStructureOf 5800 = ("highly_concentrated", 5) := by
  obtain ⟨-, -, -, -, h5, h6, h7⟩ := C7_hhi_classification
  exact ⟨h5 1000 (by norm_num), h6 2000 (by norm_num) (by norm_num),
    h7 5800 (by norm_num)⟩

/-- Claim C6: for a nonempty brand_mentions map with non-negative
mention counts and non-negative engagement values, every per-brand
mention share, engagement share and overall SoV stored by the SoV
calculator lies in the interval from 0 to 100. -/
theorem C6_share_bounds (ts : String) (st : PipelineState)
    (hne : st.brand_mentions ≠ [])
    (hm : ∀ p ∈ st.brand_mentions, 0 ≤ p.2)
    (he : ∀ p ∈ st.engagement_scores, 0 ≤ p.2)
    (b : String) (m : BrandSov)
    (hb : dget b (sov_calculation_agent ts st).sov_metrics = some m) :
    (0 ≤ m.mention_share ∧ m.mention_share ≤ 100) ∧
    (0 ≤ m.engagement_share ∧ m.engagement_share ≤ 100) ∧
    (0 ≤ m.overall_sov ∧ m.overall_sov ≤ 100) := by
  unfold sov_calculation_agent at hb
  rw [if_neg hne] at hb
  simp only [log_platform_progress] at hb
  obtain ⟨p, hp, rfl⟩ := dget_map_snd _ _ _ _ hb
  unfold sovMetricsFor clampedShare
  refine ⟨pyRound_clamp_mem 2 _, pyRound_clamp_mem 2 _, pyRound_clamp_mem 2 _⟩

/-- Claim C6 witness: instantiation at a one-brand state with positions
recorded. -/
theorem C6_share_bounds_witness :
    (0 ≤ (sovMetricsFor 3 5 3 5 [2]).mention_share ∧
      (sovMetricsFor 3 5 3 5 [2]).mention_share ≤ 100) ∧
    (0 ≤ (sovMetricsFor 3 5 3 5 [2]).engagement_share ∧
      (sovMetricsFor 3 5 3 5 [2]).engagement_share ≤ 100) ∧
    (0 ≤ (sovMetricsFor 3 5 3 5 [2]).overall_sov ∧
      (sovMetricsFor 3 5 3 5 [2]).overall_sov ≤ 100) := by
  refine C6_share_bounds "00:00:00" c6StateW (by simp [c6StateW]) ?_ ?_ "X" _ ?_
  · intro p hp
    simp only [c6StateW] at hp
    simp at hp
    rw [hp]
    norm_num
  · intro p hp
    simp only [c6StateW] at hp
    simp at hp
    rw [hp]
    norm_num
  · simp [sov_calculation_agent, c6StateW, log_platform_progress, dget, dgetD, dsum]

/-- Claim C9: over a nonempty brand_mentions map with positive counts,
the unrounded mention shares computed by the SoV calculator sum to
exactly 100, and clamping to the interval from 0 to 100 changes none of
them. -/
theorem C9_mention_shares_sum_100 (st : PipelineState)
    (hne : st.brand_mentions ≠ [])
    (hpos : ∀ p ∈ st.brand_mentions, 0 < p.2) :
    ((st.brand_mentions.map
        (fun p => clampedShare p.2 (dsum st.brand_mentions))).sum = 100) ∧
    (∀ p ∈ st.brand_mentions,
      clampedShare p.2 (dsum st.brand_mentions) =
        shareOf p.2 (dsum st.brand_mentions)) := by
  have hT0 : 0 < dsum st.brand_mentions := by
    unfold dsum
    apply List.sum_pos
    · intro x hx
      obtain ⟨p, hp, rfl⟩ := List.mem_map.mp hx
      exact hpos p hp
    · simpa using hne
  have hle : ∀ p ∈ st.brand_mentions, p.2 ≤ dsum st.brand_mentions := by
    intro p hp
    unfold dsum
    refine List.single_le_sum ?_ _ (List.mem_map_of_mem _ hp)
    intro x hx
    obtain ⟨q, hq, rfl⟩ := List.mem_map.mp hx
    exact (hpos q hq).le
  have hcl : ∀ p ∈ st.brand_mentions,
      clampedShare p.2 (dsum st.brand_mentions) =
        shareOf p.2 (dsum st.brand_mentions) := by
    intro p hp
    have hsh : shareOf p.2 (dsum st.brand_mentions) =
        p.2 / dsum st.brand_mentions * 100 := if_pos hT0
    unfold clampedShare
    rw [hsh]
    apply clamp0100_eq_of_mem
    · have := (hpos p hp).le
      positivity
    · have h1 : p.2 / dsum st.brand_mentions ≤ 1 :=
        (div_le_one hT0).mpr (hle p hp)
      nlinarith
  refine ⟨?_, hcl⟩
  have hmap : st.brand_mentions.map
      (fun p => clampedShare p.2 (dsum st.brand_mentions)) =
      st.brand_mentions.map (fun p => p.2 * (100 / dsum st.brand_mentions)) := by
    apply List.map_congr_left
    intro p hp
    rw [hcl p hp]
    unfold shareOf
    rw [if_pos hT0]
    ring
  rw [hmap, List.sum_map_mul_right]
  have hsnd : (st.brand_mentions.map (fun p => p.2)).sum = dsum st.brand_mentions := rfl
  rw [hsnd]
  field_simp

/-- Claim C9 witness: the mention shares at mentions 8 and 2 sum to
100. -/
theorem C9_mention_shares_sum_100_witness :
    (c9StateW.brand_mentions.map
      (fun p => clampedShare p.2 (dsum c9StateW.brand_mentions))).sum = 100 := by
  refine (C9_mention_shares_sum_100 c9StateW (by simp [c9StateW]) ?_).1
  intro p hp
  simp only [c9StateW] at hp
  simp at hp
  rcases hp with h | h <;> rw [h] <;> norm_num

lemma c8_mp_eval : marketPresenceScores c8State.brand_mentions c8State.sov_metrics
    c8State.position_analysis = Except.ok [("A", 85), ("B", 57)] := by
  simp [marketPresenceScores, c8State, dsum, dget, dgetD, sovOf, sovLookups,
    listMax, pyMean, pyRound, Except.map, Except.bind, Except.pure, pure, bind] <;>
    norm_num

lemma c8_eqs_eval : engagementQualityScores c8State.engagement_scores
    c8State.brand_mentions = [("A", 30), ("B", 100)] := by
  simp [engagementQualityScores, c8State, dget, dgetD, listMax, pyRound] <;>
    norm_num

lemma c8_cp_eval : competitivePositionScores c8State.sov_metrics
    c8State.brand_mentions = [("A", 100), ("B", 51)] := by
  simp [competitivePositionScores, c8State, dget, dgetD, sovOf, sortDescBySov,
    insertDescBySov, List.enum, List.enumFrom, pyRound] <;> norm_num

lemma c8_md_eval : marketDynamicsScores c8State.brand_mentions c8State.sov_metrics =
    Except.ok [("A", 42), ("B", 42)] := by
  simp [marketDynamicsScores, c8State, dsum, mentionMarketShares, hhiOf,
    marketStructureOf, dget, dgetD, pyRound] <;> norm_num

lemma c8_steps_eval : competitiveScoringSteps (fun _ => 0) c8State =
    Except.error "float division by zero" := by
  rw [competitiveScoringSteps, c8_mp_eval, c8_eqs_eval, c8_cp_eval, c8_md_eval]
  simp [weightedCompetitiveScores, brandTotals, totalScoreOf, dget, dgetD,
    pyMean, sampleVar, pyRound, Except.bind, Except.pure, pure, bind] <;> norm_num

/-- Claim C8: for a state with nonempty brand_mentions, any exception
raised inside the factor-score steps is caught at the scorer boundary
and surfaced as an error-tagged competitive_intelligence value with the
error phase, instead of propagating. -/
theorem C8_exception_caught (sqrtQ : ℚ → ℚ) (st : PipelineState)
    (hne : st.brand_mentions ≠ []) (e : String)
    (herr : competitiveScoringSteps sqrtQ st = Except.error e) :
    analyze_competitive_intelligence sqrtQ st =
      ⟨CompetitiveIntelligence.errorTagged e, some "competitive_scoring_error"⟩ := by
  unfold analyze_competitive_intelligence
  rw [if_neg hne, herr]

/-- Claim C8 witness: two brands whose total scores coincide (both
67.2), so the sample standard deviation is 0 and the CAI computation
divides by zero; the scorer surfaces the error-tagged result. -/
theorem C8_exception_caught_witness :
    analyze_competitive_intelligence (fun _ => 0) c8State =
      ⟨CompetitiveIntelligence.errorTagged "float division by zero",
        some "competitive_scoring_error"⟩ :=
  C8_exception_caught (fun _ => 0) c8State (by simp [c8State]) _ c8_steps_eval

lemma c1_core (sqrtQ : ℚ → ℚ)
    (hs : sqrtQ (sampleVar (brandTotals m90 m90 m90 m90)) = 40) :
    weightedCompetitiveScores sqrtQ m90 m90 m90 m90 = Except.ok c1Expected := by
  simp only [weightedCompetitiveScores, hs]
  simp [m90, brandTotals, totalScoreOf, dget, dgetD, pyMean, sampleVar, pyRound,
    performanceTier, interpretCai, c1Expected] <;> norm_num

/-- Claim C1 counterexample: with the three total scores 90, 50 and 10,
the sample variance of the totals is 1600, so the standard deviation
computed by statistics.stdev is 40 (not the population value of about
32.66); the brand scoring 90 receives a competitive_advantage_index of
exactly 1 and the interpretation Moderate Competitive Advantage, not the
claimed Strong Competitive Advantage. -/
theorem C1_counterexample :
    ((0 : ℚ) ≤ 40 ∧ (40 : ℚ) ^ 2 = sampleVar (brandTotals m90 m90 m90 m90)) ∧
    weightedCompetitiveScores (fun _ => 40) m90 m90 m90 m90 = Except.ok c1Expected ∧
    (dget "A" c1Expected).map CompScore.cai_interpretation =
      some (some "Moderate Competitive Advantage") ∧
    (dget "A" c1Expected).map CompScore.competitive_advantage_index =
      some (some 1) ∧
    "Moderate Competitive Advantage" ≠ "Strong Competitive Advantage" := by
  refine ⟨⟨by norm_num, ?_⟩, c1_core (fun _ => 40) rfl, ?_, ?_, by decide⟩
  · simp [sampleVar, brandTotals, totalScoreOf, m90, dget, dgetD, pyMean] <;> norm_num
  · simp [c1Expected, dget]
  · simp [c1Expected, dget]

/-- Claim C1 amended: with total competitive scores 90, 50 and 10 the
code divides by the sample standard deviation (statistics.stdev), which
is 40, so the brand scoring 90 has competitive_advantage_index exactly 1
and cai_interpretation Moderate Competitive Advantage. -/
theorem C1_cai_amended (sqrtQ : ℚ → ℚ) (h0 : 0 ≤ sqrtQ 1600)
    (hsq : sqrtQ 1600 ^ 2 = 1600) :
    weightedCompetitiveScores sqrtQ m90 m90 m90 m90 = Except.ok c1Expected := by
  have hfac : (sqrtQ 1600 - 40) * (sqrtQ 1600 + 40) = 0 := by linear_combination hsq
  have h40 : sqrtQ 1600 = 40 := by
    rcases mul_eq_zero.mp hfac with h | h
    · linarith
    · linarith
  have hv : sampleVar (brandTotals m90 m90 m90 m90) = 1600 := by
    simp [sampleVar, brandTotals, totalScoreOf, m90, dget, dgetD, pyMean] <;> norm_num
  exact c1_core sqrtQ (by rw [hv, h40])

/-- Claim C1 amended witness: the amended theorem applied to a square
root function returning 40 at the sample variance 1600. -/
theorem C1_cai_amended_witness :
    ((0 : ℚ) ≤ 40 ∧ (40 : ℚ) ^ 2 = 1600) ∧
    weightedCompetitiveScores (fun _ => (40 : ℚ)) m90 m90 m90 m90 =
      Except.ok c1Expected :=
  ⟨⟨by norm_num, by norm_num⟩,
    C1_cai_amended (fun _ => 40) (by norm_num) (by norm_num)⟩

lemma detectAux_keys_eq (fc : String → String → ℕ) (lowered : String) :
    ∀ reg : Dict (List String),
      dkeys (detectAux fc lowered reg).1 = dkeys (detectAux fc lowered reg).2 := by
  intro reg
  induction reg with
  | nil => rfl
  | cons hd tl ih =>
    obtain ⟨b, ps⟩ := hd
    simp only [detectAux]
    by_cases h : 0 < totalPatternMatches fc lowered ps
    · rw [if_pos h]
      simpa [dkeys] using ih
    · rw [if_neg h]
      exact ih

lemma detectAux_keys_sub (fc : String → String → ℕ) (lowered : String) :
    ∀ (reg : Dict (List String)) (b : String),
      b ∈ dkeys (detectAux fc lowered reg).2 → b ∈ dkeys reg := by
  intro reg
  induction reg with
  | nil => intro b h; exact absurd h (by simp [detectAux, dkeys])
  | cons hd tl ih =>
    intro b h
    obtain ⟨b0, ps⟩ := hd
    simp only [detectAux] at h
    by_cases h0 : 0 < totalPatternMatches fc lowered ps
    · rw [if_pos h0] at h
      simp only [dkeys, List.map_cons, List.mem_cons] at h ⊢
      rcases h with h | h
      · exact Or.inl h
      · exact Or.inr (ih b h)
    · rw [if_neg h0] at h
      simp only [dkeys, List.map_cons, List.mem_cons]
      exact Or.inr (ih b h)

lemma dget_of_not_mem {α : Type} :
    ∀ (m : Dict α) (b : String), b ∉ dkeys m → dget b m = none := by
  intro m
  induction m with
  | nil => intro b _; rfl
  | cons hd tl ih =>
    intro b h
    simp only [dkeys, List.map_cons, List.mem_cons, not_or] at h
    rw [dget, if_neg (fun heq => h.1 heq.symm)]
    exact ih b h.2

lemma detectAux_mem_pos (fc : String → String → ℕ) (lowered : String) :
    ∀ (reg : Dict (List String)) (b : String) (ps : List String),
      (dkeys reg).Nodup → (b, ps) ∈ reg →
      0 < totalPatternMatches fc lowered ps →
      dget b (detectAux fc lowered reg).2 =
        some (totalPatternMatches fc lowered ps) ∧
      dget b (detectAux fc lowered reg).1 = some 1 := by
  intro reg
  induction reg with
  | nil => intro b ps _ hmem; exact absurd hmem (by simp)
  | cons hd tl ih =>
    intro b ps hnd hmem hpos
    obtain ⟨b0, ps0⟩ := hd
    simp only [dkeys, List.map_cons, List.nodup_cons] at hnd
    rcases List.mem_cons.mp hmem with heq | hmem2
    · obtain ⟨rfl, rfl⟩ := Prod.mk.injEq .. ▸ heq
      simp only [detectAux]
      rw [if_pos hpos]
      exact ⟨by rw [dget, if_pos rfl], by rw [dget, if_pos rfl]⟩
    · have hbtl : b ∈ dkeys tl := by
        have := List.mem_map_of_mem Prod.fst hmem2
        simpa [dkeys] using this
      have hne : b0 ≠ b := fun h => hnd.1 (h ▸ hbtl)
      have htail := ih b ps hnd.2 hmem2 hpos
      simp only [detectAux]
      by_cases h0 : 0 < totalPatternMatches fc lowered ps0
      · rw [if_pos h0]
        exact ⟨by rw [dget, if_neg hne]; exact htail.1,
          by rw [dget, if_neg hne]; exact htail.2⟩
      · rw [if_neg h0]
        exact htail

lemma detectAux_mem_zero (fc : String → String → ℕ) (lowered : String) :
    ∀ (reg : Dict (List String)) (b : String) (ps : List String),
      (dkeys reg).Nodup → (b, ps) ∈ reg →
      totalPatternMatches fc lowered ps = 0 →
      dget b (detectAux fc lowered reg).2 = none ∧
      dget b (detectAux fc lowered reg).1 = none := by
  intro reg
  induction reg with
  | nil => intro b ps _ hmem; exact absurd hmem (by simp)
  | cons hd tl ih =>
    intro b ps hnd hmem hz
    obtain ⟨b0, ps0⟩ := hd
    simp only [dkeys, List.map_cons, List.nodup_cons] at hnd
    rcases List.mem_cons.mp hmem with heq | hmem2
    · obtain ⟨rfl, rfl⟩ := Prod.mk.injEq .. ▸ heq
      simp only [detectAux]
      rw [if_neg (by omega : ¬ 0 < totalPatternMatches fc lowered ps)]
      have hnotin2 : b ∉ dkeys (detectAux fc lowered tl).2 :=
        fun h => hnd.1 (detectAux_keys_sub fc lowered tl b h)
      have hnotin1 : b ∉ dkeys (detectAux fc lowered tl).1 := by
        rw [detectAux_keys_eq]
        exact hnotin2
      exact ⟨dget_of_not_mem _ b hnotin2, dget_of_not_mem _ b hnotin1⟩
    · have hbtl : b ∈ dkeys tl := by
        have := List.mem_map_of_mem Prod.fst hmem2
        simpa [dkeys] using this
      have hne : b0 ≠ b := fun h => hnd.1 (h ▸ hbtl)
      have htail := ih b ps hnd.2 hmem2 hz
      simp only [detectAux]
      by_cases h0 : 0 < totalPatternMatches fc lowered ps0
      · rw [if_pos h0]
        exact ⟨by rw [dget, if_neg hne]; exact htail.1,
          by rw [dget, if_neg hne]; exact htail.2⟩
      · rw [if_neg h0]
        exact htail

lemma detectAux_capped_one (fc : String → String → ℕ) (lowered : String) :
    ∀ (reg : Dict (List String)) (b : String) (n : ℕ),
      dget b (detectAux fc lowered reg).1 = some n → n = 1 := by
  intro reg
  induction reg with
  | nil => intro b n h; exact absurd h (by simp [detectAux, dget])
  | cons hd tl ih =>
    intro b n h
    obtain ⟨b0, ps0⟩ := hd
    simp only [detectAux] at h
    by_cases h0 : 0 < totalPatternMatches fc lowered ps0
    · rw [if_pos h0, dget] at h
      by_cases hb : b0 = b
      · rw [if_pos hb] at h
        injection h with h2
        exact h2.symm
      · rw [if_neg hb] at h
        exact ih b n h
    · rw [if_neg h0] at h
      exact ih b n h

lemma detectAux_raw_pos (fc : String → String → ℕ) (lowered : String) :
    ∀ (reg : Dict (List String)) (b : String) (n : ℕ),
      dget b (detectAux fc lowered reg).2 = some n → 1 ≤ n := by
  intro reg
  induction reg with
  | nil => intro b n h; exact absurd h (by simp [detectAux, dget])
  | cons hd tl ih =>
    intro b n h
    obtain ⟨b0, ps0⟩ := hd
    simp only [detectAux] at h
    by_cases h0 : 0 < totalPatternMatches fc lowered ps0
    · rw [if_pos h0, dget] at h
      by_cases hb : b0 = b
      · rw [if_pos hb] at h
        injection h with h2
        omega
      · rw [if_neg hb] at h
        exact ih b n h
    · rw [if_neg h0] at h
      exact ih b n h

lemma detectAux_all_zero (fc : String → String → ℕ) (lowered : String) :
    ∀ reg : Dict (List String),
      (∀ b ps, (b, ps) ∈ reg → totalPatternMatches fc lowered ps = 0) →
      detectAux fc lowered reg = ([], []) := by
  intro reg
  induction reg with
  | nil => intro _; rfl
  | cons hd tl ih =>
    intro hall
    obtain ⟨b0, ps0⟩ := hd
    simp only [detectAux]
    rw [if_neg (by have := hall b0 ps0 (by simp); omega)]
    exact ih (fun b ps h => hall b ps (List.mem_cons_of_mem _ h))

/-- Claim C4: for every regex engine, pattern registry with distinct
brand keys, and input text, brand detection returns a capped and a raw
map over the same brand keys, where a brand with a positive total match
count carries that total in the raw map and exactly 1 in the capped map,
a brand with zero matches is absent from both maps, every capped count
is bounded by the raw count, and an input with no matches at all yields
two empty maps (and never an exception, the function being total). -/
theorem C4_detection_contract (fc : String → String → ℕ)
    (registry : Dict (List String)) (content : String)
    (hnd : (dkeys registry).Nodup) : DetectSpec fc registry content := by
  unfold DetectSpec
  refine ⟨?_, ?_, ?_, ?_⟩
  · exact detectAux_keys_eq fc (pyLower content) registry
  · intro b ps hmem
    exact ⟨fun hpos => detectAux_mem_pos fc (pyLower content) registry b ps hnd hmem hpos,
      fun hz => detectAux_mem_zero fc (pyLower content) registry b ps hnd hmem hz⟩
  · intro b n m h1 h2
    have hn := detectAux_capped_one fc (pyLower content) registry b n h1
    have hm := detectAux_raw_pos fc (pyLower content) registry b m h2
    omega
  · intro hall
    have h := detectAux_all_zero fc (pyLower content) registry hall
    unfold detect_brands_in_content
    rw [h]
    exact ⟨rfl, rfl⟩

/-- Claim C4 witness: the contract instantiated on the configured brand
pattern registry with a sample two-match engine and sample text. -/
theorem C4_detection_contract_witness :
    (dkeys BRAND_PATTERNS).Nodup ∧ DetectSpec fc4 BRAND_PATTERNS "Best Atomberg fan" :=
  ⟨by decide, C4_detection_contract fc4 BRAND_PATTERNS "Best Atomberg fan" (by decide)⟩

lemma c10_det_eval : detect_brands_in_content fc10 BRAND_PATTERNS
    "Comment on: smart fan video atomberg is great" =
    ([("atomberg", 1)], [("atomberg", 1)]) := by decide

lemma c10_eng_eval : get_engagement_score
    "Comment on: smart fan video atomberg is great"
    "https://www.youtube.com/watch?v=abc" "Comment on: smart fan video" = 9 / 2 := by
  have h1 : ¬ ∃ b ∈ dkeys BRAND_PATTERNS,
      substrIn b (pyLower "Comment on: smart fan video") := by decide
  have h2 : ¬ ∃ d ∈ AUTHORITY_DOMAINS,
      substrIn d "https://www.youtube.com/watch?v=abc" := by decide
  have h3 : ¬ ∃ k ∈ reviewKeywords,
      substrIn k (pyLower "Comment on: smart fan video atomberg is great") := by decide
  have h4 : ¬ ∃ k ∈ comparisonKeywords,
      substrIn k (pyLower "Comment on: smart fan video atomberg is great") := by decide
  have hlen : ("Comment on: smart fan video atomberg is great" : String).length = 45 := by
    decide
  simp only [get_engagement_score, if_neg h1, if_neg h2, if_neg h3, if_neg h4, hlen]
  norm_num [ENGAGEMENT_content_length_multiplier]

lemma c10_agg_eval : quantAggregate fc10 [rec10] =
    ⟨[("atomberg", 1)], [("atomberg", 1)], [("atomberg", 9 / 2)],
      [("atomberg", [0])]⟩ := by
  have h0 : quantAggregate fc10 [rec10] =
      processResult fc10 ⟨[], [], [], []⟩ rec10 := rfl
  rw [h0]
  have hu : rec10.url = "https://www.youtube.com/watch?v=abc" := rfl
  have ht : rec10.title = "Comment on: smart fan video" := rfl
  have hs : rec10.snippet = "atomberg is great" := rfl
  have hp : rec10.position = 0 := rfl
  simp only [processResult, hu, ht, hs, hp]
  simp [c10_det_eval, c10_eng_eval, dadd, dappend, dget] <;> norm_num

lemma c10_st10_eval : st10 =
    ⟨[("atomberg", 1)], [("atomberg", 9 / 2)], [("atomberg", [0])], [],
      "atomberg", [], "quantitative_analysis_complete"⟩ := by
  unfold st10
  rw [c10_agg_eval]

lemma c10_sov_eval : (sov_calculation_agent "12:00:00" st10).sov_metrics =
    [("atomberg", ⟨100, 100, 100, 0, 1, 1, 9 / 2⟩)] := by
  rw [c10_st10_eval]
  simp [sov_calculation_agent, log_platform_progress, dsum, dget, dgetD,
    sovMetricsFor, clampedShare, shareOf, clamp0100, pyRound,
    SOV_WEIGHT_mention, SOV_WEIGHT_engagement, SOV_WEIGHT_position] <;> norm_num

/-- Claim C10: market_presence is not clamped and can exceed its nominal
0 to 100 scale. A comment record carries position 0, which is recorded
as a position sample by the aggregation; for the single detected brand
whose only position sample is 0 the position sub-score is
(11 - 0) * 10 = 110, so market_presence = 100 * 0.60 + 100 * 0.25 +
110 * 0.15 = 101.5 > 100. -/
theorem C10_presence_exceeds_100 :
    (quantAggregate fc10 [rec10]).position_analysis = [("atomberg", [0])] ∧
    rec10.position = 0 ∧
    marketPresenceScores st10.brand_mentions
      (sov_calculation_agent "12:00:00" st10).sov_metrics
      st10.position_analysis = Except.ok [("atomberg", 101.5)] ∧
    (100 : ℚ) < 101.5 := by
  refine ⟨by rw [c10_agg_eval], rfl, ?_, by norm_num⟩
  rw [c10_sov_eval, c10_st10_eval]
  simp [marketPresenceScores, dsum, dget, dgetD, sovOf, sovLookups, listMax,
    pyMean, pyRound, Except.map, Except.bind, Except.pure, pure, bind] <;> norm_num
